import Mathlib

/-!
Verification of the `uurl/origin` fragment: a renewable-energy certificate
issuance platform.  The fragment contains (a) the React hook
`useSelectAutocompleteEffects` (a form autocomplete helper), embedded here
directly from its source, and (b) integration tests of the NestJS
certification-request API.  The controller/service behind that API is not part
of the fragment, so its behaviour is modelled from the specification
(sections 3, 4, 6 and 7 of the design document) as an explicit state machine
over certification requests and certificates.
-/

/- ===== Frontend: useSelectAutocompleteEffects (from source) ===== -/

/-- One option of a form select, as in `FormSelectOption`. -/
structure FormSelectOption where
  value : String
  label : String
  deriving DecidableEq, Repr

/-- The part of `GenericFormField` used by `useSelectAutocompleteEffects`:
`multiple` says whether several options may be selected, `maxValues` is the
optional cap on the number of selected options. -/
structure GenericFormField where
  multiple : Bool
  maxValues : Option Nat
  deriving Repr

/-- Embedding of `changeHandler` from `useSelectAutocompleteEffects`:
`const maxValues = field.multiple ? field.maxValues : 1;`
`const slicedValues = value ? value.slice(0, maxValues ?? value.length) : value;`
`onChange(slicedValues); setTextValue('');`
The result is the pair (argument passed to `onChange`, new text value).
A JavaScript array is truthy even when empty, so for a list argument the
`value ? _ : value` guard always takes the slicing branch. -/
def changeHandler (field : GenericFormField) (value : List FormSelectOption) :
    List FormSelectOption × String :=
  let maxValues : Option Nat := if field.multiple then field.maxValues else some 1
  let slicedValues := value.take (maxValues.getD value.length)
  (slicedValues, "")

/-- Embedding of the `useEffect` of `useSelectAutocompleteEffects`:
`if (dependentValue?.length === 0) { setTextValue(''); onChange([]); }`.
Given the dependent value and the current text value, it returns the new text
value and, when the effect calls `onChange`, the argument of that call. -/
def dependentValueEffect (dependentValue : List FormSelectOption)
    (textValue : String) : String × Option (List FormSelectOption) :=
  if dependentValue.length = 0 then ("", some []) else (textValue, none)

/- ===== Backend: certification requests and certificates ===== -/

/-- HTTP status codes the specification assigns to the API:
201 on creation, 200 on success, 400 on invalid input or re-revocation,
409 on duplicate time-period request. -/
inductive HttpStatus where
  | ok
  | created
  | badRequest
  | conflict
  deriving DecidableEq, Repr

/-- Character test for a hexadecimal digit of a blockchain address. -/
def isHexDigit (c : Char) : Bool :=
  c.isDigit || (('a' ≤ c) && (c ≤ 'f')) || (('A' ≤ c) && (c ≤ 'F'))

/-- Lower-case a single character (the ASCII letters used in hex digits). -/
def lowerChar (c : Char) : Char :=
  if c.isUpper then Char.ofNat (c.toNat + 32) else c

/-- Modelled from the spec: the API validates the `to` blockchain address
(ethers `getAddress` in the tests); a well-formed address is `0x` followed by
40 hexadecimal digits. -/
def isValidAddress (s : String) : Bool :=
  s.data.length = 42 && s.data.take 2 = ['0', 'x'] && (s.data.drop 2).all isHexDigit

/-- Modelled from the spec: the canonical (checksummed) form an address is
stored under.  The EIP-55 checksum computation (Keccak-based, inside the
ethers library) is outside this fragment; canonicalisation is modelled as
case normalisation of the 40 hex digits, which keeps the property the spec
relies on: every submitted spelling of an address maps to one owner string. -/
def checksumAddress (s : String) : String :=
  String.mk ('0' :: 'x' :: (s.data.drop 2).map lowerChar)

/-- Modelled from the spec: address parsing — `none` on a malformed address
(the API then answers 400 Bad Request), otherwise the canonical form. -/
def getAddress (s : String) : Option String :=
  if isValidAddress s then some (checksumAddress s) else none

/-- The energy of a certificate, with a possible private-volume split. -/
structure Energy where
  publicVolume : Option Nat
  privateVolume : Option Nat
  deriving DecidableEq, Repr

/-- A certification request as observed through the API: device, owner
address, time period, energy amount, files, approval/revocation flags,
privacy flag and the id of the certificate issued on approval. -/
structure CertificationRequest where
  id : Nat
  deviceId : String
  owner : String
  fromTime : Int
  toTime : Int
  energy : Nat
  files : List String
  approved : Bool
  revoked : Bool
  isPrivate : Bool
  issuedCertificateId : Option Nat
  deriving DecidableEq, Repr

/-- A certificate as observed through `GET /certificate/:id`. -/
structure Certificate where
  id : Nat
  deviceId : String
  generationStartTime : Int
  generationEndTime : Int
  issuedPrivately : Bool
  owner : String
  energy : Energy
  deriving DecidableEq, Repr

/-- The body of `POST /irec/certification-request`.  The `to` field of the
JSON body is called `toAddress` here because `to` is reserved in Lean. -/
structure SubmitDTO where
  toAddress : String
  deviceId : String
  fromTime : Int
  toTime : Int
  energy : Nat
  files : List String
  isPrivate : Bool
  deriving DecidableEq, Repr

/-- Modelled from the spec: the persistent state behind the API — the stored
certification requests, the issued certificates, and the next free ids. -/
structure IssuerState where
  requests : List CertificationRequest
  certificates : List Certificate
  nextRequestId : Nat
  nextCertificateId : Nat
  deriving DecidableEq, Repr

/-- The empty initial state. -/
def initialState : IssuerState :=
  { requests := [], certificates := [], nextRequestId := 1, nextCertificateId := 1 }

/-- Two closed time periods overlap. -/
def overlaps (f1 t1 f2 t2 : Int) : Bool :=
  f1 ≤ t2 && f2 ≤ t1

/-- Look a certification request up by id. -/
def findRequest (s : IssuerState) (id : Nat) : Option CertificationRequest :=
  s.requests.find? (fun r => r.id = id)

/-- Look a certificate up by id, as `GET /certificate/:id`. -/
def getCertificate (s : IssuerState) (id : Nat) : Option Certificate :=
  s.certificates.find? (fun c => c.id = id)

/-- The pending request stored for a submission: fresh id, the submitted
device, period, energy and files, the canonical owner, not yet approved or
revoked, no certificate yet. -/
def newRequest (s : IssuerState) (dto : SubmitDTO) (owner : String) :
    CertificationRequest :=
  { id := s.nextRequestId
    deviceId := dto.deviceId
    owner := owner
    fromTime := dto.fromTime
    toTime := dto.toTime
    energy := dto.energy
    files := dto.files
    approved := false
    revoked := false
    isPrivate := dto.isPrivate
    issuedCertificateId := none }

/-- Modelled from the spec: `POST /irec/certification-request`.
A malformed `to` address is rejected with 400 and nothing is created; a
request whose time period overlaps an existing request of the same device and
owner is rejected with 409 and nothing is created; otherwise a fresh pending
request (neither approved nor revoked, no certificate yet) is stored and
answered with 201. -/
def submit (s : IssuerState) (dto : SubmitDTO) :
    HttpStatus × Option CertificationRequest × IssuerState :=
  match getAddress dto.toAddress with
  | none => (HttpStatus.badRequest, none, s)
  | some owner =>
    if s.requests.any (fun r =>
        r.deviceId = dto.deviceId && r.owner = owner &&
        overlaps r.fromTime r.toTime dto.fromTime dto.toTime) then
      (HttpStatus.conflict, none, s)
    else
      (HttpStatus.created, some (newRequest s dto owner),
        { s with
            requests := s.requests ++ [newRequest s dto owner]
            nextRequestId := s.nextRequestId + 1 })

/-- The certificate issued when a request is approved: same device, the
generation period is the request's time period, owned by the request's owner;
a private request yields a certificate issued privately whose energy is
recorded as a private volume. -/
def issueCertificate (s : IssuerState) (r : CertificationRequest) : Certificate :=
  { id := s.nextCertificateId
    deviceId := r.deviceId
    generationStartTime := r.fromTime
    generationEndTime := r.toTime
    issuedPrivately := r.isPrivate
    owner := r.owner
    energy :=
      if r.isPrivate then
        { publicVolume := none, privateVolume := some r.energy }
      else
        { publicVolume := some r.energy, privateVolume := none } }

/-- Modelled from the spec: `PUT /irec/certification-request/:id/approve`.
Only a pending request can be approved: a certificate is issued, the request
is marked approved and records the certificate id, and the API answers 200
with `success = true`.  A request already approved or revoked is terminal:
the call fails with a 400-class error and the state is unchanged. -/
def approve (s : IssuerState) (id : Nat) : HttpStatus × Bool × IssuerState :=
  match findRequest s id with
  | none => (HttpStatus.badRequest, false, s)
  | some r =>
    if r.approved || r.revoked then
      (HttpStatus.badRequest, false, s)
    else
      let cert := issueCertificate s r
      let updated := { r with approved := true, issuedCertificateId := some cert.id }
      (HttpStatus.ok, true,
        { s with
            requests := s.requests.map (fun q => if q.id = id then updated else q)
            certificates := s.certificates ++ [cert]
            nextCertificateId := s.nextCertificateId + 1 })

/-- Modelled from the spec: `PUT /irec/certification-request/:id/revoke`.
Only a pending request can be revoked (200, `success = true`); a request
already revoked or approved is terminal and a further revocation is rejected
with a conflict-class error surfacing as 400, leaving the state unchanged. -/
def revoke (s : IssuerState) (id : Nat) : HttpStatus × Bool × IssuerState :=
  match findRequest s id with
  | none => (HttpStatus.badRequest, false, s)
  | some r =>
    if r.approved || r.revoked then
      (HttpStatus.badRequest, false, s)
    else
      let updated := { r with revoked := true }
      (HttpStatus.ok, true,
        { s with
            requests := s.requests.map (fun q => if q.id = id then updated else q) })

/-- The caller of `GET /irec/certification-request`: either the issuer, or an
organization device manager whose organization holds the given owner
addresses. -/
inductive Caller where
  | issuer
  | orgDeviceManager (orgAddresses : List String)
  deriving Repr

/-- Whether a caller is allowed to see a certification request: an issuer
sees every request, a device manager only the requests owned by their
organization. -/
def canSee (c : Caller) (r : CertificationRequest) : Bool :=
  match c with
  | Caller.issuer => true
  | Caller.orgDeviceManager addrs => addrs.contains r.owner

/-- Modelled from the spec: `GET /irec/certification-request`, scoped by
caller. -/
def listRequests (s : IssuerState) (c : Caller) : List CertificationRequest :=
  s.requests.filter (canSee c)

/-- One API operation that mutates the state. -/
inductive Op where
  | submit (dto : SubmitDTO)
  | approve (id : Nat)
  | revoke (id : Nat)

/-- The state reached after one operation. -/
def step (s : IssuerState) : Op → IssuerState
  | Op.submit dto => (submit s dto).2.2
  | Op.approve id => (approve s id).2.2
  | Op.revoke id => (revoke s id).2.2

/-- The state reached from the initial state after a list of operations. -/
def run (ops : List Op) : IssuerState :=
  ops.foldl step initialState

/- ===== Sample data mirroring the integration tests ===== -/

/-- A valid submission mirroring the test data. -/
def sampleDTO : SubmitDTO :=
  { toAddress := "0x0089D53F703f7E0843953D48133f74cE247184c2"
    deviceId := "123e4567-e89b-12d3-a456-426614174000"
    fromTime := 100
    toTime := 200
    energy := 1000000
    files := ["test.pdf", "test2.pdf"]
    isPrivate := false }

/-- The canonical owner string of `sampleDTO`. -/
def sampleOwner : String := "0x0089d53f703f7e0843953d48133f74ce247184c2"

/-- The pending request created by `sampleDTO` in the initial state. -/
def sampleRequest : CertificationRequest :=
  { id := 1
    deviceId := "123e4567-e89b-12d3-a456-426614174000"
    owner := sampleOwner
    fromTime := 100
    toTime := 200
    energy := 1000000
    files := ["test.pdf", "test2.pdf"]
    approved := false
    revoked := false
    isPrivate := false
    issuedCertificateId := none }

/-- A state holding exactly the pending `sampleRequest`. -/
def sampleState : IssuerState :=
  { requests := [sampleRequest], certificates := [], nextRequestId := 2, nextCertificateId := 1 }

/-- The state after revoking `sampleRequest`. -/
def revokedState : IssuerState := (revoke sampleState 1).2.2

/-- A private submission mirroring the test data. -/
def privateDTO : SubmitDTO := { sampleDTO with isPrivate := true }

/-- The pending private request created by `privateDTO` in the initial state. -/
def privateRequest : CertificationRequest := { sampleRequest with isPrivate := true }

/-- A state holding exactly the pending `privateRequest`. -/
def privateState : IssuerState :=
  { requests := [privateRequest], certificates := [], nextRequestId := 2, nextCertificateId := 1 }

/-- A second submission by a different owner over a different period. -/
def otherOwnerDTO : SubmitDTO :=
  { sampleDTO with
      toAddress := "0x1122334455667788990011223344556677889900"
      fromTime := 10
      toTime := 20 }

/-- A state with two requests of different owners. -/
def twoOwnerState : IssuerState :=
  (submit (submit initialState sampleDTO).2.2 otherOwnerDTO).2.2

/-- The device-manager caller whose organization owns `sampleOwner`. -/
def deviceManagerCaller : Caller := Caller.orgDeviceManager [sampleOwner]

/- ===== Helper lemmas ===== -/

/-- Replacing the elements of a given id in a request list keeps `find?` by
that id pointing at the replacement. -/
theorem find?_id_map_update (l : List CertificationRequest) (id : Nat)
    (r upd : CertificationRequest) (hid : upd.id = id)
    (hfound : l.find? (fun q => q.id = id) = some r) :
    (l.map (fun q => if q.id = id then upd else q)).find? (fun q => q.id = id) =
      some upd := by
  induction l with
  | nil => simp at hfound
  | cons a l ih =>
    by_cases ha : a.id = id
    · simp [ha, hid]
    · rw [List.find?_cons_of_neg _ (by simpa using ha)] at hfound
      simpa [ha, List.find?_cons_of_neg] using ih hfound

/-- Appending a certificate of a fresh id to a certificate list makes `find?`
by that id return it. -/
theorem find?_id_append_fresh (l : List Certificate) (c : Certificate)
    (hfresh : ∀ d ∈ l, d.id ≠ c.id) :
    (l ++ [c]).find? (fun d => d.id = c.id) = some c := by
  induction l with
  | nil => simp
  | cons a l ih =>
    rw [List.cons_append, List.find?_cons_of_neg _ (by simpa using hfresh a (by simp))]
    exact ih fun d hd => hfresh d (by simp [hd])

/- ===== Claims about the autocomplete hook ===== -/

/-- C9: the list `changeHandler` forwards to `onChange` is a prefix of the
input selection list; it has at most one element when `field.multiple` is
false, at most `field.maxValues` elements when `multiple` is true with
`maxValues` set, and is the whole input unchanged when `multiple` is true
with `maxValues` unset. -/
theorem changeHandler_bounded_selection
    (field : GenericFormField) (value : List FormSelectOption) :
    (changeHandler field value).1 <+: value ∧
    (field.multiple = false → (changeHandler field value).1.length ≤ 1) ∧
    (∀ m, field.multiple = true → field.maxValues = some m →
      (changeHandler field value).1.length ≤ m) ∧
    (field.multiple = true → field.maxValues = none →
      (changeHandler field value).1 = value) := by
  refine ⟨⟨value.drop _, List.take_append_drop _ value⟩, ?_, ?_, ?_⟩
  · intro h
    have hc : (changeHandler field value).1 = value.take 1 := by
      simp [changeHandler, h]
    rw [hc, List.length_take]
    exact min_le_left _ _
  · intro m h1 h2
    have hc : (changeHandler field value).1 = value.take m := by
      simp [changeHandler, h1, h2]
    rw [hc, List.length_take]
    exact min_le_left _ _
  · intro h1 h2
    simp [changeHandler, h1, h2]

/-- Witness for C9: with `multiple` set and `maxValues = 2`, a three-element
selection is cut to a prefix of at most two elements. -/
theorem changeHandler_bounded_selection_witness :
    (changeHandler { multiple := true, maxValues := some 2 }
        [⟨"a", "A"⟩, ⟨"b", "B"⟩, ⟨"c", "C"⟩]).1 <+:
      [⟨"a", "A"⟩, ⟨"b", "B"⟩, ⟨"c", "C"⟩] ∧
    (changeHandler { multiple := true, maxValues := some 2 }
        [⟨"a", "A"⟩, ⟨"b", "B"⟩, ⟨"c", "C"⟩]).1.length ≤ 2 :=
  ⟨(changeHandler_bounded_selection _ _).1,
   (changeHandler_bounded_selection _ _).2.2.1 2 rfl rfl⟩

/-- C10: when the dependent value list becomes empty, the effect resets the
text value to the empty string and calls `onChange` with the empty list; for
a non-empty dependent value it leaves the text value unchanged and performs
no `onChange` call. -/
theorem dependentValueEffect_clears_on_empty
    (dv : List FormSelectOption) (tv : String) :
    (dv = [] → dependentValueEffect dv tv = ("", some [])) ∧
    (dv ≠ [] → dependentValueEffect dv tv = (tv, none)) := by
  constructor
  · intro h
    simp [dependentValueEffect, h]
  · intro h
    simp [dependentValueEffect, List.length_eq_zero, h]

/-- Witness for C10 at an empty and at a one-element dependent value. -/
theorem dependentValueEffect_clears_on_empty_witness :
    dependentValueEffect ([] : List FormSelectOption) "abc" = ("", some []) ∧
    dependentValueEffect [⟨"a", "A"⟩] "abc" = ("abc", none) :=
  ⟨(dependentValueEffect_clears_on_empty [] "abc").1 rfl,
   (dependentValueEffect_clears_on_empty [⟨"a", "A"⟩] "abc").2 (by decide)⟩

/- ===== Claims about the certification-request API ===== -/

/-- C7: a submission whose `to` field is not a valid blockchain address is
rejected with 400 Bad Request and no certification request is created: the
state is unchanged. -/
theorem submit_invalid_address_rejected
    (s : IssuerState) (dto : SubmitDTO)
    (hga : getAddress dto.toAddress = none) :
    submit s dto = (HttpStatus.badRequest, none, s) := by
  simp [submit, hga]

/-- Witness for C7 at the test input, the malformed address `invalid one`. -/
theorem submit_invalid_address_rejected_witness :
    submit initialState { sampleDTO with toAddress := "invalid one" } =
      (HttpStatus.badRequest, none, initialState) :=
  submit_invalid_address_rejected initialState _ (by decide)

/-- C6: a valid, non-conflicting submission is answered 201 Created with a
request echoing the submitted device, period, energy and files, owned by the
canonical (checksummed) form of the submitted address, and neither approved
nor revoked. -/
theorem submit_valid_created
    (s : IssuerState) (dto : SubmitDTO) (owner : String)
    (hga : getAddress dto.toAddress = some owner)
    (hnc : ∀ r ∈ s.requests, ¬(r.deviceId = dto.deviceId ∧ r.owner = owner ∧
        overlaps r.fromTime r.toTime dto.fromTime dto.toTime = true)) :
    ∃ req s2, submit s dto = (HttpStatus.created, some req, s2) ∧
      req.deviceId = dto.deviceId ∧ req.fromTime = dto.fromTime ∧
      req.toTime = dto.toTime ∧ req.energy = dto.energy ∧
      req.files = dto.files ∧ req.owner = checksumAddress dto.toAddress ∧
      req.approved = false ∧ req.revoked = false := by
  have howner : owner = checksumAddress dto.toAddress := by
    by_cases hv : isValidAddress dto.toAddress
    · simp only [getAddress, if_pos hv, Option.some.injEq] at hga
      exact hga.symm
    · simp [getAddress, hv] at hga
  have hany : (s.requests.any fun r =>
      r.deviceId = dto.deviceId && r.owner = owner &&
      overlaps r.fromTime r.toTime dto.fromTime dto.toTime) = false := by
    rw [List.any_eq_false]
    intro r hr
    have h := hnc r hr
    simp only [Bool.and_eq_true, decide_eq_true_eq, not_and] at h ⊢
    tauto
  refine ⟨newRequest s dto owner,
    { s with
        requests := s.requests ++ [newRequest s dto owner]
        nextRequestId := s.nextRequestId + 1 },
    by simp [submit, hga, hany], rfl, rfl, rfl, rfl, rfl, ?_, rfl, rfl⟩
  simpa [newRequest] using howner

/-- Witness for C6 at the test submission in the empty initial state. -/
theorem submit_valid_created_witness :
    ∃ req s2, submit initialState sampleDTO = (HttpStatus.created, some req, s2) ∧
      req.deviceId = sampleDTO.deviceId ∧ req.fromTime = sampleDTO.fromTime ∧
      req.toTime = sampleDTO.toTime ∧ req.energy = sampleDTO.energy ∧
      req.files = sampleDTO.files ∧ req.owner = checksumAddress sampleDTO.toAddress ∧
      req.approved = false ∧ req.revoked = false :=
  submit_valid_created initialState sampleDTO sampleOwner (by decide)
    (by intro r hr; simp [initialState] at hr)

/-- C2: after a successful submission, a second submission for the same
device and owner over an overlapping time period is rejected with 409
Conflict and creates nothing: the state is unchanged. -/
theorem submit_overlapping_conflict
    (s : IssuerState) (dto1 dto2 : SubmitDTO)
    (h1 : (submit s dto1).1 = HttpStatus.created)
    (hdev : dto2.deviceId = dto1.deviceId)
    (hto : getAddress dto2.toAddress = getAddress dto1.toAddress)
    (hov : overlaps dto1.fromTime dto1.toTime dto2.fromTime dto2.toTime = true) :
    submit (submit s dto1).2.2 dto2 =
      (HttpStatus.conflict, none, (submit s dto1).2.2) := by
  rcases hga : getAddress dto1.toAddress with _ | owner
  · simp [submit, hga] at h1
  · cases hany : (s.requests.any fun r =>
        r.deviceId = dto1.deviceId && r.owner = owner &&
        overlaps r.fromTime r.toTime dto1.fromTime dto1.toTime) with
    | true => simp [submit, hga, hany] at h1
    | false =>
      have hs2 : (submit s dto1).2.2 =
          { s with
              requests := s.requests ++ [newRequest s dto1 owner]
              nextRequestId := s.nextRequestId + 1 } := by
        simp [submit, hga, hany]
      rw [hs2]
      have hany2 : ((s.requests ++ [newRequest s dto1 owner]).any fun r =>
          r.deviceId = dto2.deviceId && r.owner = owner &&
          overlaps r.fromTime r.toTime dto2.fromTime dto2.toTime) = true := by
        simp [List.any_append, newRequest, hdev, hov]
      simp [submit, hto, hga, hany2]

/-- Witness for C2: submitting the test data twice from the initial state. -/
theorem submit_overlapping_conflict_witness :
    submit (submit initialState sampleDTO).2.2 sampleDTO =
      (HttpStatus.conflict, none, (submit initialState sampleDTO).2.2) :=
  submit_overlapping_conflict initialState sampleDTO sampleDTO (by decide) rfl rfl
    (by decide)

/-- C1: approving a pending certification request answers 200 with
`success = true` and issues a certificate: the request afterwards records the
positive id of the new certificate, and fetching that certificate returns one
whose device, generation period and owner are the request's. -/
theorem approve_pending_issues_certificate
    (s : IssuerState) (id : Nat) (r : CertificationRequest)
    (hfind : findRequest s id = some r)
    (hap : r.approved = false) (hrv : r.revoked = false)
    (hpos : 0 < s.nextCertificateId)
    (hfresh : ∀ c ∈ s.certificates, c.id ≠ s.nextCertificateId) :
    (approve s id).1 = HttpStatus.ok ∧ (approve s id).2.1 = true ∧
    findRequest (approve s id).2.2 id =
      some { r with approved := true,
                    issuedCertificateId := some s.nextCertificateId } ∧
    0 < s.nextCertificateId ∧
    ∃ cert, getCertificate (approve s id).2.2 s.nextCertificateId = some cert ∧
      cert.deviceId = r.deviceId ∧ cert.generationStartTime = r.fromTime ∧
      cert.generationEndTime = r.toTime ∧ cert.owner = r.owner := by
  have hcond : (r.approved || r.revoked) = false := by simp [hap, hrv]
  have happ : approve s id =
      (HttpStatus.ok, true,
        { s with
            requests := s.requests.map (fun q => if q.id = id then
              { r with approved := true,
                       issuedCertificateId := some s.nextCertificateId } else q)
            certificates := s.certificates ++ [issueCertificate s r]
            nextCertificateId := s.nextCertificateId + 1 }) := by
    simp [approve, hfind, hcond, issueCertificate]
  rw [happ]
  have hfind2 : s.requests.find? (fun q => q.id = id) = some r := hfind
  have hrid : r.id = id := by simpa using List.find?_some hfind2
  refine ⟨rfl, rfl, ?_, hpos, ?_⟩
  · exact find?_id_map_update s.requests id r _ (by simpa using hrid) hfind2
  · exact ⟨issueCertificate s r,
      find?_id_append_fresh s.certificates (issueCertificate s r)
        (fun d hd => hfresh d hd),
      rfl, rfl, rfl, rfl⟩

/-- Witness for C1 at a concrete pending request. -/
theorem approve_pending_issues_certificate_witness :
    (approve sampleState 1).1 = HttpStatus.ok ∧
    (approve sampleState 1).2.1 = true ∧
    findRequest (approve sampleState 1).2.2 1 =
      some { sampleRequest with approved := true,
                                issuedCertificateId := some 1 } ∧
    0 < (1 : Nat) ∧
    ∃ cert, getCertificate (approve sampleState 1).2.2 1 = some cert ∧
      cert.deviceId = sampleRequest.deviceId ∧
      cert.generationStartTime = sampleRequest.fromTime ∧
      cert.generationEndTime = sampleRequest.toTime ∧
      cert.owner = sampleRequest.owner :=
  approve_pending_issues_certificate sampleState 1 sampleRequest (by decide) rfl rfl
    (by decide) (by intro c hc; simp [sampleState] at hc)

/-- C3: revoking a pending request answers 200 with `success = true`, and a
second revocation of the same request is rejected with the conflict-class
error surfacing as 400, leaving the state unchanged. -/
theorem revoke_then_revoke_rejected
    (s : IssuerState) (id : Nat) (r : CertificationRequest)
    (hfind : findRequest s id = some r)
    (hap : r.approved = false) (hrv : r.revoked = false) :
    (revoke s id).1 = HttpStatus.ok ∧ (revoke s id).2.1 = true ∧
    revoke (revoke s id).2.2 id =
      (HttpStatus.badRequest, false, (revoke s id).2.2) := by
  have hcond : (r.approved || r.revoked) = false := by simp [hap, hrv]
  have hrev : revoke s id =
      (HttpStatus.ok, true,
        { s with requests := (s.requests.map
            (fun q => if q.id = id then { r with revoked := true } else q)) }) := by
    simp [revoke, hfind, hcond]
  rw [hrev]
  have hfind2 : s.requests.find? (fun q => q.id = id) = some r := hfind
  have hrid : r.id = id := by simpa using List.find?_some hfind2
  have hfind3 : (s.requests.map
      (fun q => if q.id = id then { r with revoked := true } else q)).find?
        (fun q => q.id = id) = some { r with revoked := true } :=
    find?_id_map_update s.requests id r _ (by simpa using hrid) hfind2
  exact ⟨rfl, rfl, by simp [revoke, findRequest, hfind3]⟩

/-- Witness for C3 at a concrete pending request. -/
theorem revoke_then_revoke_rejected_witness :
    (revoke sampleState 1).1 = HttpStatus.ok ∧
    (revoke sampleState 1).2.1 = true ∧
    revoke (revoke sampleState 1).2.2 1 =
      (HttpStatus.badRequest, false, (revoke sampleState 1).2.2) :=
  revoke_then_revoke_rejected sampleState 1 sampleRequest (by decide) rfl rfl

/-- Each API operation keeps every stored request from being both approved
and revoked. -/
theorem step_preserves_not_both (s : IssuerState)
    (hs : ∀ q ∈ s.requests, ¬(q.approved = true ∧ q.revoked = true)) (op : Op) :
    ∀ q ∈ (step s op).requests, ¬(q.approved = true ∧ q.revoked = true) := by
  intro q hq
  cases op with
  | submit dto =>
    rcases hga : getAddress dto.toAddress with _ | owner
    · simp only [step, submit, hga] at hq
      exact hs q hq
    · cases hany : (s.requests.any fun r =>
          r.deviceId = dto.deviceId && r.owner = owner &&
          overlaps r.fromTime r.toTime dto.fromTime dto.toTime) with
      | true =>
        simp only [step, submit, hga, hany] at hq
        exact hs q hq
      | false =>
        simp only [step, submit, hga, hany, Bool.false_eq_true, if_false] at hq
        simp only [List.mem_append, List.mem_singleton] at hq
        rcases hq with h | h
        · exact hs q h
        · rw [h]
          simp [newRequest]
  | approve id =>
    rcases hf : findRequest s id with _ | r
    · simp only [step, approve, hf] at hq
      exact hs q hq
    · cases hcond : (r.approved || r.revoked) with
      | true =>
        simp only [step, approve, hf, hcond, if_true] at hq
        exact hs q hq
      | false =>
        have hrv : r.revoked = false := by
          rcases Bool.or_eq_false_iff.mp hcond with ⟨_, h⟩
          exact h
        simp only [step, approve, hf, hcond, Bool.false_eq_true, if_false,
          List.mem_map] at hq
        obtain ⟨p, hp, hpq⟩ := hq
        by_cases hpid : p.id = id
        · rw [if_pos hpid] at hpq
          rw [← hpq]
          simp [hrv]
        · rw [if_neg hpid] at hpq
          rw [← hpq]
          exact hs p hp
  | revoke id =>
    rcases hf : findRequest s id with _ | r
    · simp only [step, revoke, hf] at hq
      exact hs q hq
    · cases hcond : (r.approved || r.revoked) with
      | true =>
        simp only [step, revoke, hf, hcond, if_true] at hq
        exact hs q hq
      | false =>
        have hap : r.approved = false := by
          rcases Bool.or_eq_false_iff.mp hcond with ⟨h, _⟩
          exact h
        simp only [step, revoke, hf, hcond, Bool.false_eq_true, if_false,
          List.mem_map] at hq
        obtain ⟨p, hp, hpq⟩ := hq
        by_cases hpid : p.id = id
        · rw [if_pos hpid] at hpq
          rw [← hpq]
          simp [hap]
        · rw [if_neg hpid] at hpq
          rw [← hpq]
          exact hs p hp

/-- C4: an approved or revoked certification request is terminal — a further
approve or revoke is rejected and leaves the state unchanged — and in every
state reachable from the initial one no request is both approved and
revoked. -/
theorem settled_request_terminal :
    (∀ s id r, findRequest s id = some r →
      (r.approved = true ∨ r.revoked = true) →
      approve s id = (HttpStatus.badRequest, false, s) ∧
      revoke s id = (HttpStatus.badRequest, false, s)) ∧
    (∀ ops q, q ∈ (run ops).requests → ¬(q.approved = true ∧ q.revoked = true)) := by
  constructor
  · intro s id r hfind hterm
    have hcond : (r.approved || r.revoked) = true := by
      rcases hterm with h | h <;> simp [h]
    constructor
    · simp [approve, hfind, hcond]
    · simp [revoke, hfind, hcond]
  · intro ops q hq
    have key : ∀ (l : List Op) (s : IssuerState),
        (∀ p ∈ s.requests, ¬(p.approved = true ∧ p.revoked = true)) →
        ∀ p ∈ (l.foldl step s).requests, ¬(p.approved = true ∧ p.revoked = true) := by
      intro l
      induction l with
      | nil => intro s hs; simpa using hs
      | cons op l ih =>
        intro s hs
        exact ih (step s op) (step_preserves_not_both s hs op)
    exact key ops initialState (by simp [initialState]) q (by simpa [run] using hq)

/-- Witness for C4 at a concrete revoked request. -/
theorem settled_request_terminal_witness :
    approve revokedState 1 = (HttpStatus.badRequest, false, revokedState) ∧
    revoke revokedState 1 = (HttpStatus.badRequest, false, revokedState) :=
  settled_request_terminal.1 revokedState 1 { sampleRequest with revoked := true }
    (by decide) (Or.inr rfl)

/-- C5: a submission with `isPrivate = true` is created with
`isPrivate = true`, and the certificate issued when such a request is
approved is issued privately, its energy recorded as a private volume equal
to the requested energy amount. -/
theorem private_request_private_certificate :
    (∀ s dto st req s2, dto.isPrivate = true →
      submit s dto = (st, some req, s2) → req.isPrivate = true) ∧
    (∀ s id r, findRequest s id = some r → r.approved = false →
      r.revoked = false → r.isPrivate = true →
      (∀ c ∈ s.certificates, c.id ≠ s.nextCertificateId) →
      ∃ cert, getCertificate (approve s id).2.2 s.nextCertificateId = some cert ∧
        cert.issuedPrivately = true ∧
        cert.energy.privateVolume = some r.energy) := by
  constructor
  · intro s dto st req s2 hpriv hsub
    have h1 : (submit s dto).2.1 = some req := by rw [hsub]
    rcases hga : getAddress dto.toAddress with _ | owner
    · rw [show (submit s dto).2.1 = none from by simp [submit, hga]] at h1
      cases h1
    · cases hany : (s.requests.any fun r =>
          r.deviceId = dto.deviceId && r.owner = owner &&
          overlaps r.fromTime r.toTime dto.fromTime dto.toTime) with
      | true =>
        rw [show (submit s dto).2.1 = none from by simp [submit, hga, hany]] at h1
        cases h1
      | false =>
        rw [show (submit s dto).2.1 = some (newRequest s dto owner) from by
          simp [submit, hga, hany]] at h1
        have hreq : req = newRequest s dto owner := by
          injection h1 with h
          exact h.symm
        rw [hreq]
        simp [newRequest, hpriv]
  · intro s id r hfind hap hrv hpriv hfresh
    have hcond : (r.approved || r.revoked) = false := by simp [hap, hrv]
    have happ : (approve s id).2.2 =
        { s with
            requests := s.requests.map (fun q => if q.id = id then
              { r with approved := true,
                       issuedCertificateId := some s.nextCertificateId } else q)
            certificates := s.certificates ++ [issueCertificate s r]
            nextCertificateId := s.nextCertificateId + 1 } := by
      simp [approve, hfind, hcond, issueCertificate]
    rw [happ]
    refine ⟨issueCertificate s r,
      find?_id_append_fresh s.certificates (issueCertificate s r)
        (fun d hd => hfresh d hd), ?_, ?_⟩
    · simp [issueCertificate, hpriv]
    · simp [issueCertificate, hpriv]

/-- Witness for C5 at the concrete private request of the tests. -/
theorem private_request_private_certificate_witness :
    privateRequest.isPrivate = true ∧
    ∃ cert, getCertificate (approve privateState 1).2.2 1 = some cert ∧
      cert.issuedPrivately = true ∧
      cert.energy.privateVolume = some 1000000 :=
  ⟨private_request_private_certificate.1 initialState privateDTO HttpStatus.created
      privateRequest privateState rfl (by decide),
   private_request_private_certificate.2 privateState 1 privateRequest (by decide)
      rfl rfl rfl (by intro c hc; simp [privateState] at hc)⟩

/-- C8: the certification-request listing is scoped by caller — the issuer
sees every stored request while an organization device manager sees exactly
the requests owned by their organization — and in the two-owner sample state
the device manager's listing has one element while the issuer's has two. -/
theorem listRequests_scoped (s : IssuerState) (addrs : List String) :
    listRequests s Caller.issuer = s.requests ∧
    listRequests s (Caller.orgDeviceManager addrs) =
      s.requests.filter (fun r => addrs.contains r.owner) ∧
    (listRequests twoOwnerState deviceManagerCaller).length = 1 ∧
    (listRequests twoOwnerState Caller.issuer).length = 2 := by
  refine ⟨?_, rfl, by decide, by decide⟩
  simp [listRequests, canSee]
